import Mathlib

/-!
# Verification of the liora-core message pipeline

A shallow embedding of `src/liora-core.js` (the core of the Liora chat bot):
the permission check (`hasPermission`), command resolution (`getCommandNamed`),
module loading (`loadModule`), the message middleware pipeline
(`checkMessageAuthor`, `blockHandler`, `commandDetector`, `rateLimiter`,
`commandDispatcher`), and a timed model of the per-user rate-limit state.

External collaborators (the Discord client, the filesystem, Node's `require`,
timers) are modelled at the boundary: replies become explicit outcome values,
module import becomes a `resolveSource` parameter, and `setTimeout` callbacks
become scheduled deadlines that fire when wall-clock time passes them.
JavaScript objects used as string-keyed maps become association lists in
insertion order (which is the iteration order of `Object.keys` for these maps),
and JavaScript's `x || y` on strings is modelled with the empty string as the
only falsy string value.
-/

namespace Liora

/-- First-match lookup in a string-keyed association list; models JS property
access `obj[key]` (and `key in obj` via `isSome`) for objects whose keys are
inserted without duplicates. -/
def alistFind {β : Type} : List (String × β) → String → Option β
  | [], _ => none
  | (k, v) :: rest, key => if k = key then some v else alistFind rest key

/-- Models JS property assignment `obj[key] = value`: overwrite the existing
entry if the key is present, otherwise append (insertion order preserved). -/
def jsObjSet {β : Type} (m : List (String × β)) (key : String) (v : β) :
    List (String × β) :=
  if (alistFind m key).isSome then
    m.map (fun p => if p.1 = key then (key, v) else p)
  else m ++ [(key, v)]

/-- Is `pat` a leading segment of `l`? Models `s.indexOf(pat) === 0`. -/
def leadsWith : List Char → List Char → Bool
  | [], _ => true
  | _ :: _, [] => false
  | p :: ps, c :: cs => p = c ∧ leadsWith ps cs

/-- `s.indexOf(pat) === 0`, i.e. `s` starts with `pat`. -/
def strStartsWith (s pat : String) : Bool := leadsWith pat.data s.data

/-- `s.slice(n)`: drop the first `n` characters. -/
def strDrop (s : String) (n : Nat) : String := String.mk (s.data.drop n)

/-- `s.trim()`: remove leading and trailing whitespace. -/
def strTrim (s : String) : String :=
  String.mk
    (((s.data.dropWhile Char.isWhitespace).reverse.dropWhile
        Char.isWhitespace).reverse)

/-- `s.toLowerCase()`, restricted to ASCII letters (command tokens). -/
def jsToLower (s : String) : String :=
  String.mk (s.data.map (fun c =>
    if 'A' ≤ c ∧ c ≤ 'Z' then Char.ofNat (c.toNat + 32) else c))

/-- The double-quote character of the argument-splitting regex. -/
def doubleQuoteChar : Char := Char.ofNat 34

/-- The single-quote character of the argument-splitting regex. -/
def singleQuoteChar : Char := Char.ofNat 39

/-- A character matched by the regex alternative `[^\s"']+`. -/
def isTokChar (c : Char) : Bool :=
  ¬ c.isWhitespace ∧ c ≠ doubleQuoteChar ∧ c ≠ singleQuoteChar

/-- Scan for the closing quote `q`: returns the characters before it and the
remainder after it, or `none` if the quote is never closed. -/
def findClosing (q : Char) : List Char → Option (List Char × List Char)
  | [] => none
  | c :: rest =>
    if c = q then some ([], rest)
    else
      match findClosing q rest with
      | some (inner, after) => some (c :: inner, after)
      | none => none

/-- One pass of the matcher for `/[^\s"']+|"([^"]*)"|'([^']*)'/g`: at each
position try a maximal unquoted run, then a double-quoted string, then a
single-quoted string; on failure advance one character. The fuel is the input
length; every recursive call consumes at least one character, so the fuel
never runs out on the initial call from `jsTokenize`. -/
def scanTokensAux : Nat → List Char → List String
  | 0, _ => []
  | _ + 1, [] => []
  | fuel + 1, c :: rest =>
    if isTokChar c then
      String.mk ((c :: rest).takeWhile isTokChar)
        :: scanTokensAux fuel ((c :: rest).dropWhile isTokChar)
    else if c = doubleQuoteChar ∨ c = singleQuoteChar then
      match findClosing c rest with
      | some (inner, after) =>
          String.mk (c :: inner ++ [c]) :: scanTokensAux fuel after
      | none => scanTokensAux fuel rest
    else scanTokensAux fuel rest

/-- `s.match(/[^\s"']+|"([^"]*)"|'([^']*)'/g)`, with the JS result `null`
represented by the empty list (the code calls `.map` on the result, so `null`
surfaces as a thrown `TypeError`, modelled where the call happens). -/
def jsTokenize (s : String) : List String :=
  scanTokensAux s.length s.data

/-- A quote character, for the strip regex `/^['"]+|['"]$/g`. -/
def isQuoteChar (c : Char) : Bool := c = doubleQuoteChar ∨ c = singleQuoteChar

/-- `a.replace(/^['"]+|['"]$/g, '')`: remove the maximal leading run of quote
characters, then remove a single trailing quote character if present. -/
def stripQuotes (s : String) : String :=
  let rest := s.data.dropWhile isQuoteChar
  match rest.getLast? with
  | none => ""
  | some c => if isQuoteChar c then String.mk rest.dropLast else String.mk rest

/-- `arr.join(sep)`. -/
def jsJoin (sep : String) : List String → String
  | [] => ""
  | [s] => s
  | s :: rest => s ++ sep ++ jsJoin sep rest

/-- The rate-limit tunables `config.defaultUserCooldown`. -/
structure UserCooldownConfig where
  intervalMs : Nat
  messageCount : Nat
  blockDurationMs : Nat
deriving DecidableEq

/-- A command declared by a module. The `execute` hook's message and
bot-handle parameters are opaque external state, so the hook is modelled as a
function of the argument list returning either success or the rejection's
error message. -/
structure Command where
  name : String
  aliases : List String
  argumentNames : List String
  description : String
  permissionLevel : String
  execute : List String → Except String Unit

/-- A loaded module record: its command list and the `defaultAliases` index
derived at load time. Module-contributed middleware is not modelled (none of
the core stages depend on it). -/
structure Module where
  commands : List Command
  defaultAliases : List (String × String)

/-- A server member context: the set of role ids the member holds
(`member.roles.has(role)` becomes list membership). -/
structure Member where
  roles : List String

/-- An inbound message, reduced to the fields the pipeline reads. -/
structure Msg where
  authorId : String
  authorIsBot : Bool
  content : String
  guild : Option String
  member : Option Member

/-- The slice of `bot.config` that the modelled code reads. -/
structure Config where
  owner : String
  pfx : String
  commandAliases : List (String × String)
  defaultUserCooldown : UserCooldownConfig
  blockedUsers : List String
  settings : List (String × List (String × String))
  groups : List (String × List String)
  commandPermissions : List (String × String)
  serverPermissions : List (String × List (String × String))

/-- The loaded-module registry `bot.modules`: name-keyed, in load order. -/
abbrev Registry : Type := List (String × Module)

/-- `newModule.defaultAliases`: for each command in order, each alias maps to
the command's canonical name (later assignments overwrite earlier ones). -/
def buildDefaultAliases (cmds : List Command) : List (String × String) :=
  cmds.foldl
    (fun acc cmd => cmd.aliases.foldl (fun acc a => jsObjSet acc a cmd.name) acc)
    []

/-- The failures of `bot.loadModule`, each reported through the callback. -/
inductive LoadError where
  | alreadyLoaded (name : String)
  | notFound (name : String)
  | importFailed (message : String)
deriving DecidableEq

/-- `bot.loadModule(name, callback)`. The filesystem search over
`moduleSources` and the `require` call are the external boundary, abstracted
as `resolveSource`: `none` means no source directory contains the module,
`some (.error m)` means the import threw with message `m`, and
`some (.ok cmds)` means the module imported with command list `cmds`.
Returns the registry after the call together with the error (if any) passed
to the callback; on error the registry is left untouched. -/
def loadModule (resolveSource : String → Option (Except String (List Command)))
    (registry : Registry) (name : String) : Registry × Option LoadError :=
  if (alistFind registry name).isSome then
    (registry, some (LoadError.alreadyLoaded name))
  else
    match resolveSource name with
    | none => (registry, some (LoadError.notFound name))
    | some (Except.error m) => (registry, some (LoadError.importFailed m))
    | some (Except.ok cmds) =>
        (registry ++ [(name, ⟨cmds, buildDefaultAliases cmds⟩)], none)

/-- `bot.prefixForMessageContext(msg)`: the per-server prefix override from
`config.settings[guildId].prefix` when the message is from a server that has
one, otherwise the global `config.prefix`. -/
def prefixForMessageContext (cfg : Config) (msg : Msg) : String :=
  match msg.guild with
  | some gid =>
    match alistFind cfg.settings gid with
    | some serverSettings =>
      match alistFind serverSettings "prefix" with
      | some p => p
      | none => cfg.pfx
    | none => cfg.pfx
  | none => cfg.pfx

/-- `bot.hasPermission(member, user, group, role)`: the ordered short-circuit
of owner check, the reserved group `all`, configured-group membership, and
the server role check (only when a member context is present). -/
def hasPermission (cfg : Config) (member : Option Member) (userId : String)
    (group : String) (role : String) : Bool :=
  if userId = cfg.owner then true
  else if group = "all" then true
  else if (match alistFind cfg.groups group with
           | some members => decide (userId ∈ members)
           | none => false) then true
  else
    match member with
    | some m => decide (role ∈ m.roles)
    | none => false

/-- The alias-resolution loop of `bot.getCommandNamed`:
`moduleNames.forEach((name) => { cmdStr = modules[name].defaultAliases[cmdStr] || cmdStr; })`.
The accumulator is rewritten by each module in load order, so a later module
sees the token as rewritten by earlier modules. -/
def foldDefaultAliases (mods : Registry) (tok : String) : String :=
  mods.foldl
    (fun s m =>
      match alistFind m.2.defaultAliases s with
      | some v => if v = "" then s else v
      | none => s)
    tok

/-- The command-search loop of `bot.getCommandNamed`: the first module in load
order owning a command with the resolved name wins (the `err` flag makes later
finds dead). -/
def firstCommandNamed (mods : Registry) (nm : String) : Option Command :=
  mods.foldl
    (fun acc m =>
      match acc with
      | some c => some c
      | none => m.2.commands.find? (fun cmd => cmd.name = nm))
    none

/-- `bot.getCommandNamed(command, callback)`: a configured global alias
override is consulted first (and when the key is present the module default
aliases are not consulted at all); otherwise the token is folded through every
module's default-alias index in load order; the result is looked up in the
modules' command lists in load order. `callback(found)`/`callback()` becomes
`some`/`none`. -/
def getCommandNamed (cfg : Config) (mods : Registry) (command : String) :
    Option Command :=
  let cmdStr :=
    match alistFind cfg.commandAliases command with
    | some v => v
    | none => foldDefaultAliases mods command
  firstCommandNamed mods cmdStr

/-- An exception escaping a middleware stage. The only one the modelled code
can raise is the `TypeError` from calling `.map` on a `null` regex match in
`commandDetector`, and the `TypeError` from indexing into a missing
`serverPermissions[guild.id]` object in `commandDispatcher`. -/
inductive PipeError where
  | typeError
deriving DecidableEq

/-- The `commandDetector` middleware: when the message content starts with the
contextual prefix, the remainder is trimmed and split by the argument regex;
a `null` match (no token at all) makes `.map` throw; otherwise the first
(quote-stripped) token, lowercased, becomes the command and the rest the args.
`.ok none` is the silent short-circuit for non-command messages. -/
def commandDetector (cfg : Config) (msg : Msg) :
    Except PipeError (Option (String × List String)) :=
  let p := prefixForMessageContext cfg msg
  if strStartsWith msg.content p then
    let argString := strTrim (strDrop msg.content p.length)
    match jsTokenize argString with
    | [] => Except.error PipeError.typeError
    | t :: rest =>
        Except.ok (some (jsToLower (stripQuotes t), rest.map stripQuotes))
  else Except.ok none

/-- Per-user rate-limit state: the entry of `userMessageCounters`, membership
in `userCooldowns` as the deadline of the pending interval timer (`some t`
means the user is in the set and the `setTimeout` scheduled at window opening
fires at time `t`), and membership in the rate-limiter-managed part of
`config.blockedUsers` as the deadline of the pending unblock timer. -/
structure RLState where
  messageCounter : Nat
  windowExpiresAt : Option Nat
  unblockAt : Option Nat
deriving DecidableEq

/-- `cooldownActive`: the user is in `bot.userCooldowns`. -/
def cooldownActive (s : RLState) : Bool := s.windowExpiresAt.isSome

/-- `blocked`: the user is in the blocked-user set via the rate limiter. -/
def blockedFlag (s : RLState) : Bool := s.unblockAt.isSome

/-- The state of a user who has never sent a message. -/
def initialRLState : RLState :=
  { messageCounter := 0, windowExpiresAt := none, unblockAt := none }

/-- Fire every pending timer whose deadline has passed by time `now`: the
interval timer deletes the user from `userCooldowns` and zeroes the message
counter; the unblock timer removes the user from `config.blockedUsers`.
The two callbacks touch disjoint state, so their relative order is
irrelevant. -/
def fireTimersUpTo (now : Nat) (s : RLState) : RLState :=
  let s1 :=
    match s.windowExpiresAt with
    | some w =>
        if w ≤ now then { s with messageCounter := 0, windowExpiresAt := none }
        else s
    | none => s
  match s1.unblockAt with
  | some u => if u ≤ now then { s1 with unblockAt := none } else s1
  | none => s1

/-- What the `rateLimiter` middleware did with one message: whether it called
`next()` (forwarding the message to the dispatcher) and how many rate-limit
notices it sent to the originating channel. -/
structure RLStageEffect where
  forwardedToNext : Bool
  rateNoticesSent : Nat
deriving DecidableEq

/-- The `rateLimiter` middleware body, run at time `now` on the author's
state (timers already fired): open a counting window if none is active
(scheduling its expiry `intervalMs` from now), increment the counter, then
either forward (`counter < messageCount`), or — exactly at the threshold —
send one notice, push the user onto `config.blockedUsers` and schedule the
unblock `blockDurationMs` from now, or — above the threshold — do nothing. -/
def rateLimiterStep (cfg : UserCooldownConfig) (now : Nat) (s : RLState) :
    RLState × RLStageEffect :=
  let s1 :=
    if s.windowExpiresAt.isNone then
      { s with windowExpiresAt := some (now + cfg.intervalMs) }
    else s
  let c := s1.messageCounter + 1
  let s2 := { s1 with messageCounter := c }
  if c < cfg.messageCount then (s2, ⟨true, 0⟩)
  else if c = cfg.messageCount then
    ({ s2 with unblockAt := some (now + cfg.blockDurationMs) }, ⟨false, 1⟩)
  else (s2, ⟨false, 0⟩)

/-- What happened to one message of a user in the blockHandler → rateLimiter
slice of the pipeline. -/
inductive RLMsgOutcome where
  | droppedBlocked
  | passedRateLimiter (eff : RLStageEffect)
deriving DecidableEq

/-- One command message from the user arriving at time `now`: pending timers
fire first, then `blockHandler` drops the message if the user is still in the
blocked set, otherwise the `rateLimiter` middleware runs. -/
def processMessage (cfg : UserCooldownConfig) (now : Nat) (s : RLState) :
    RLState × RLMsgOutcome :=
  let s1 := fireTimersUpTo now s
  if s1.unblockAt.isSome then (s1, RLMsgOutcome.droppedBlocked)
  else
    let r := rateLimiterStep cfg now s1
    (r.1, RLMsgOutcome.passedRateLimiter r.2)

/-- The per-user rate-limit states reachable from the initial state by
command messages and by mere passage of time (which fires the window-expiry
and unblock-expiry timers), with a monotone clock. -/
inductive RLReachable (cfg : UserCooldownConfig) : Nat → RLState → Prop where
  | init : RLReachable cfg 0 initialRLState
  | message {t t' : Nat} {s : RLState} :
      RLReachable cfg t s → t ≤ t' →
      RLReachable cfg t' (processMessage cfg t' s).1
  | elapse {t t' : Nat} {s : RLState} :
      RLReachable cfg t s → t ≤ t' →
      RLReachable cfg t' (fireTimersUpTo t' s)

/-- The number of required (not `?`-suffixed) entries of `argumentNames`:
`_.filter(cmd.argumentNames, i => !_.endsWith(i, '?')).length`. -/
def requiredArgCount (cmd : Command) : Nat :=
  (cmd.argumentNames.filter (fun a => ¬ a.data.getLast? = some '?')).length

/-- The observable outcome of the `commandDispatcher` middleware for one
message: unknown commands are silently ignored; a usage error carries the
expected argument list and the command description shown to the user; an
execution failure is caught and reported to the channel attributed to the
typed command token, carrying the failure's message. -/
inductive DispatchOutcome where
  | noCommand
  | insufficientArgs (expectedArgs : String) (description : String)
  | permissionDenied
  | executedOk
  | executionErrorReported (commandToken : String) (errMessage : String)
deriving DecidableEq

/-- The `commandDispatcher` middleware (terminal stage): resolve the command;
check arity against the required-argument count; resolve the permission level
(`commandPermissions[c.command] || cmd.permissionLevel`) and the role
override (`c.message.guild ? serverPermissions[guild.id][c.command] || '' :
''`, which throws when `serverPermissions[guild.id]` is absent); check
permission; execute, converting a rejection into a user-visible error
report. -/
def commandDispatcher (cfg : Config) (mods : Registry) (msg : Msg)
    (command : String) (args : List String) :
    Except PipeError DispatchOutcome :=
  match getCommandNamed cfg mods command with
  | none => Except.ok DispatchOutcome.noCommand
  | some cmd =>
    if requiredArgCount cmd ≤ args.length then
      let permissionLevel :=
        match alistFind cfg.commandPermissions command with
        | some v => if v = "" then cmd.permissionLevel else v
        | none => cmd.permissionLevel
      match (match msg.guild with
             | some gid =>
               match alistFind cfg.serverPermissions gid with
               | some serverMap =>
                   Except.ok ((alistFind serverMap command).getD "")
               | none => Except.error PipeError.typeError
             | none => Except.ok "") with
      | Except.error e => Except.error e
      | Except.ok roleOverride =>
        if hasPermission cfg msg.member msg.authorId permissionLevel
            roleOverride then
          match cmd.execute args with
          | Except.ok _ => Except.ok DispatchOutcome.executedOk
          | Except.error m =>
              Except.ok (DispatchOutcome.executionErrorReported command m)
        else Except.ok DispatchOutcome.permissionDenied
    else
      Except.ok (DispatchOutcome.insufficientArgs
        (jsJoin " " cmd.argumentNames) cmd.description)

/-- The fate of one inbound message in the full middleware chain. -/
inductive PipelineResult where
  | droppedBotAuthor
  | droppedBlockedUser
  | noPrefixMatch
  | rateLimited (noticesSent : Nat)
  | dispatched (d : DispatchOutcome)
deriving DecidableEq

/-- The whole middleware chain for one inbound message at time `now`, with
`rl` the author's rate-limit state: `checkMessageAuthor` → `blockHandler`
(the author is blocked when in the configured `blockedUsers` list or when the
rate limiter's pending unblock has not yet fired) → `commandDetector` →
`rateLimiter` → `commandDispatcher`. A stage that does not call `next()`
ends the run with the corresponding result; a thrown `TypeError` escapes the
chain as `Except.error`. -/
def runPipeline (cfg : Config) (mods : Registry) (now : Nat) (rl : RLState)
    (msg : Msg) : Except PipeError (RLState × PipelineResult) :=
  if msg.authorIsBot then Except.ok (rl, PipelineResult.droppedBotAuthor)
  else
    let rl1 := fireTimersUpTo now rl
    if cfg.blockedUsers.contains msg.authorId || rl1.unblockAt.isSome then
      Except.ok (rl1, PipelineResult.droppedBlockedUser)
    else
      match commandDetector cfg msg with
      | Except.error e => Except.error e
      | Except.ok none => Except.ok (rl1, PipelineResult.noPrefixMatch)
      | Except.ok (some (command, args)) =>
        let r := rateLimiterStep cfg.defaultUserCooldown now rl1
        if r.2.forwardedToNext then
          match commandDispatcher cfg mods msg command args with
          | Except.error e => Except.error e
          | Except.ok d => Except.ok (r.1, PipelineResult.dispatched d)
        else Except.ok (r.1, PipelineResult.rateLimited r.2.rateNoticesSent)

/-! ## Claim-side definitions

These render the specification's wording (not the source), for comparison
with the embedded code. -/

/-- The dispatcher's required permission group as the spec describes it:
`commandPermissions[c.command] || cmd.permissionLevel` (a configured,
non-empty override wins, otherwise the command's declared level). This is
the exact sub-expression of `commandDispatcher`. -/
def resolvedPermissionLevel (cfg : Config) (command : String) (cmd : Command) :
    String :=
  match alistFind cfg.commandPermissions command with
  | some v => if v = "" then cmd.permissionLevel else v
  | none => cmd.permissionLevel

/-- The dispatcher's role override as computed by the code:
`c.message.guild ? serverPermissions[guild.id][c.command] || '' : ''`,
which throws a `TypeError` when the message is from a server for which
`serverPermissions` holds no object. This is the exact sub-expression of
`commandDispatcher`. -/
def resolvedRoleOverride (cfg : Config) (msg : Msg) (command : String) :
    Except PipeError String :=
  match msg.guild with
  | some gid =>
    match alistFind cfg.serverPermissions gid with
    | some serverMap => Except.ok ((alistFind serverMap command).getD "")
    | none => Except.error PipeError.typeError
  | none => Except.ok ""

/-- Alias resolution as the specification words it: search every loaded
module's alias index in load order, *first match wins* (the search stops at
the first module whose index contains the typed token), falling back to the
token itself. -/
def specAliasResolveFirstMatch (mods : Registry) (tok : String) : String :=
  match mods.findSome? (fun m => alistFind m.2.defaultAliases tok) with
  | some v => v
  | none => tok

/-- Command resolution as the specification words it (claim C5 as stated):
global override first, else the first-match module alias search, then the
first command with the resolved name in load order. -/
def getCommandNamedFirstMatchSpec (cfg : Config) (mods : Registry)
    (command : String) : Option Command :=
  let cmdStr :=
    match alistFind cfg.commandAliases command with
    | some v => v
    | none => specAliasResolveFirstMatch mods command
  mods.findSome? (fun m => m.2.commands.find? (fun cmd => cmd.name = cmdStr))

/-- Alias resolution as the code actually behaves: the token is folded
through each module's alias index in load order, each module rewriting the
current token if (and only if) its index maps it to a non-empty target, so a
later module may rewrite the target produced by an earlier module. Written
by direct recursion, to be compared with the accumulator loop of the code. -/
def chainAliasResolveSpec : Registry → String → String
  | [], tok => tok
  | m :: rest, tok =>
    chainAliasResolveSpec rest
      (match alistFind m.2.defaultAliases tok with
       | some v => if v = "" then tok else v
       | none => tok)

/-- Command resolution with the chained alias rewrite (the amended C5). -/
def getCommandNamedChainSpec (cfg : Config) (mods : Registry)
    (command : String) : Option Command :=
  let cmdStr :=
    match alistFind cfg.commandAliases command with
    | some v => v
    | none => chainAliasResolveSpec mods command
  mods.findSome? (fun m => m.2.commands.find? (fun cmd => cmd.name = cmdStr))

/-! ## Concrete instances used by witnesses and counterexamples -/

/-- The default rate-limit tunables of the config schema. -/
def defaultCooldown : UserCooldownConfig := ⟨10000, 5, 60000⟩

/-- Tunables with a message threshold of 1 (a single message blocks). -/
def cfgThresholdOne : UserCooldownConfig := ⟨10000, 1, 60000⟩

/-- Tunables whose block duration (5) is shorter than the counting window
(10), so the unblock fires while the window is still open. -/
def cfgShortBlock : UserCooldownConfig := ⟨10, 1, 5⟩

/-- A command `b` carrying the default alias `a`. -/
def cmdAliasB : Command := ⟨"b", ["a"], [], "", "all", fun _ => Except.ok ()⟩

/-- A command `c` carrying the default alias `b`. -/
def cmdAliasC : Command := ⟨"c", ["b"], [], "", "all", fun _ => Except.ok ()⟩

/-- Two modules whose alias indexes chain: `m1` maps `a` to `b`, `m2` maps
`b` to `c`. -/
def modsChain : Registry :=
  [("m1", ⟨[cmdAliasB], buildDefaultAliases [cmdAliasB]⟩),
   ("m2", ⟨[cmdAliasC], buildDefaultAliases [cmdAliasC]⟩)]

/-- A config with no alias overrides and no permission configuration. -/
def cfgPlain : Config :=
  ⟨"owner0", "$", [], defaultCooldown, [], [], [], [], []⟩

/-- A command requiring the `admins` permission group. -/
def cmdMod : Command :=
  ⟨"mod", [], [], "a moderation command", "admins", fun _ => Except.ok ()⟩

/-- A registry holding only `cmdMod`. -/
def modsMod : Registry := [("m", ⟨[cmdMod], buildDefaultAliases [cmdMod]⟩)]

/-- A direct message from an unprivileged user. -/
def msgDirect : Msg := ⟨"user1", false, "$mod", none, none⟩

/-- A `kick` command with the default alias `k` and one required argument. -/
def cmdKick : Command :=
  ⟨"kick", ["k"], ["user"], "kick a user", "all", fun _ => Except.ok ()⟩

/-- A registry holding only `cmdKick`. -/
def modsKick : Registry := [("m", ⟨[cmdKick], buildDefaultAliases [cmdKick]⟩)]

/-- A config with a permission override for the canonical name `kick` and no
entry in `serverPermissions` for any server. -/
def cfgNoServerMap : Config :=
  ⟨"owner0", "$", [], defaultCooldown, [], [], [], [("kick", "admins")], []⟩

/-- A config whose `serverPermissions` holds an (empty) object for server
`g1` and no per-command permission overrides. -/
def cfgServerMapEmpty : Config :=
  ⟨"owner0", "$", [], defaultCooldown, [], [], [], [], [("g1", [])]⟩

/-- A message from server `g1`. -/
def msgFromServer : Msg := ⟨"user1", false, "$kick x", some "g1", none⟩

/-- A config with a permission group `staff` containing `alice`. -/
def cfgStaff : Config :=
  ⟨"owner0", "$", [], defaultCooldown, [], [], [("staff", ["alice"])], [], []⟩

/-- A command whose execute hook always rejects with message `kaput`. -/
def cmdBoom : Command :=
  ⟨"boom", [], [], "always fails", "all", fun _ => Except.error "kaput"⟩

/-- A registry holding only `cmdBoom`. -/
def modsBoom : Registry := [("m", ⟨[cmdBoom], buildDefaultAliases [cmdBoom]⟩)]

/-- A `ping` command with no arguments. -/
def cmdPing : Command := ⟨"ping", [], [], "pong", "all", fun _ => Except.ok ()⟩

/-- A registry already holding a module named `core`. -/
def regCore : Registry := [("core", ⟨[cmdPing], buildDefaultAliases [cmdPing]⟩)]

/-- A message that is the command prefix followed by whitespace only. -/
def msgOnlySpaces : Msg := ⟨"user1", false, "$   ", none, none⟩

/-! ## Helper lemmas -/

/-- `commandDispatcher` factored through the claim-side permission-resolution
definitions; the bodies coincide, so this is definitional. -/
theorem commandDispatcher_characterization (cfg : Config) (mods : Registry)
    (msg : Msg) (command : String) (args : List String) :
    commandDispatcher cfg mods msg command args =
      match getCommandNamed cfg mods command with
      | none => Except.ok DispatchOutcome.noCommand
      | some cmd =>
        if requiredArgCount cmd ≤ args.length then
          match resolvedRoleOverride cfg msg command with
          | Except.error e => Except.error e
          | Except.ok roleOverride =>
            if hasPermission cfg msg.member msg.authorId
                (resolvedPermissionLevel cfg command cmd) roleOverride then
              match cmd.execute args with
              | Except.ok _ => Except.ok DispatchOutcome.executedOk
              | Except.error m =>
                  Except.ok (DispatchOutcome.executionErrorReported command m)
            else Except.ok DispatchOutcome.permissionDenied
        else
          Except.ok (DispatchOutcome.insufficientArgs
            (jsJoin " " cmd.argumentNames) cmd.description) := rfl

/-- The rate limiter always increments the stored counter by exactly one. -/
theorem rateLimiterStep_counter (cfg : UserCooldownConfig) (now : Nat)
    (s : RLState) :
    (rateLimiterStep cfg now s).1.messageCounter = s.messageCounter + 1 := by
  rcases s with ⟨mc, w, u⟩
  simp only [rateLimiterStep]
  rcases w with _ | wv <;> split_ifs <;> rfl

/-- Firing timers leaves the state alone, or closes the window (also zeroing
the counter), or removes only the pending unblock. -/
theorem fireTimersUpTo_cases (now : Nat) (s : RLState) :
    fireTimersUpTo now s = s ∨
    (fireTimersUpTo now s).windowExpiresAt = none ∨
    ((fireTimersUpTo now s).unblockAt = none ∧
     (fireTimersUpTo now s).messageCounter = s.messageCounter ∧
     (fireTimersUpTo now s).windowExpiresAt = s.windowExpiresAt) := by
  rcases s with ⟨mc, w, u⟩
  rcases w with _ | wv <;> rcases u with _ | uv
  · left; rfl
  · by_cases h : uv ≤ now
    · right; right; simp [fireTimersUpTo, h]
    · left; simp [fireTimersUpTo, h]
  · by_cases h : wv ≤ now
    · right; left; simp [fireTimersUpTo, h]
    · left; simp [fireTimersUpTo, h]
  · by_cases h1 : wv ≤ now
    · right; left; by_cases h2 : uv ≤ now <;> simp [fireTimersUpTo, h1, h2]
    · by_cases h2 : uv ≤ now
      · right; right; simp [fireTimersUpTo, h1, h2]
      · left; simp [fireTimersUpTo, h1, h2]

/-- The invariant relating the two per-user flags: whenever the user is
simultaneously blocked and inside an open counting window, the counter has
reached the threshold (the window is the one in which the block fired). -/
def rlInv (cfg : UserCooldownConfig) (s : RLState) : Prop :=
  blockedFlag s = true → cooldownActive s = true →
  cfg.messageCount ≤ s.messageCounter

/-- Timer firing preserves the flag invariant. -/
theorem rlInv_fire (cfg : UserCooldownConfig) (now : Nat) (s : RLState)
    (h : rlInv cfg s) : rlInv cfg (fireTimersUpTo now s) := by
  rcases fireTimersUpTo_cases now s with heq | hw | ⟨hu, _, _⟩
  · rw [heq]; exact h
  · intro _ hcool; rw [cooldownActive, hw] at hcool; cases hcool
  · intro hb _; rw [blockedFlag, hu] at hb; cases hb

/-- The rate limiter body, run on an unblocked state, preserves the flag
invariant. -/
theorem rlInv_rateLimiterStep (cfg : UserCooldownConfig) (now : Nat)
    (s : RLState) (h : s.unblockAt = none) :
    rlInv cfg (rateLimiterStep cfg now s).1 := by
  rcases s with ⟨mc, w, u⟩
  cases h
  rcases w with _ | wv <;>
    simp only [rateLimiterStep, rlInv, blockedFlag, cooldownActive] <;>
    split_ifs with h1 h2 <;> simp_all

/-- Processing one message preserves the flag invariant. -/
theorem rlInv_processMessage (cfg : UserCooldownConfig) (now : Nat)
    (s : RLState) (h : rlInv cfg s) :
    rlInv cfg (processMessage cfg now s).1 := by
  have hf := rlInv_fire cfg now s h
  simp only [processMessage]
  by_cases hb : (fireTimersUpTo now s).unblockAt.isSome
  · simpa [hb] using hf
  · have hnone : (fireTimersUpTo now s).unblockAt = none :=
      Option.not_isSome_iff_eq_none.mp hb
    simpa [hb] using rlInv_rateLimiterStep cfg now _ hnone

/-- The alias-rewriting loop of the code equals its recursive rendering. -/
theorem foldDefaultAliases_eq_chain (mods : Registry) (tok : String) :
    foldDefaultAliases mods tok = chainAliasResolveSpec mods tok := by
  induction mods generalizing tok with
  | nil => rfl
  | cons m rest ih =>
    show foldDefaultAliases rest _ = _
    rw [ih]
    rfl

/-- Folding the command search from an already-found command returns it. -/
theorem firstCommandNamed_foldl_some (mods : Registry) (nm : String)
    (c : Command) :
    mods.foldl
      (fun acc m =>
        match acc with
        | some c => some c
        | none => m.2.commands.find? (fun cmd => cmd.name = nm))
      (some c) = some c := by
  induction mods with
  | nil => rfl
  | cons m rest ih => exact ih

/-- The `err`-flag search loop of the code equals a first-match search. -/
theorem firstCommandNamed_eq_findSome (mods : Registry) (nm : String) :
    firstCommandNamed mods nm =
      mods.findSome? (fun m => m.2.commands.find? (fun cmd => cmd.name = nm)) := by
  induction mods with
  | nil => rfl
  | cons m rest ih =>
    rcases h : m.2.commands.find? (fun cmd => cmd.name = nm) with _ | c
    · rw [List.findSome?_cons, h, ← ih]
      show List.foldl
          (fun acc m =>
            match acc with
            | some c => some c
            | none => m.2.commands.find? (fun cmd => cmd.name = nm))
          (m.2.commands.find? (fun cmd => cmd.name = nm)) rest =
        firstCommandNamed rest nm
      rw [h]
      rfl
    · rw [List.findSome?_cons, h]
      show List.foldl
          (fun acc m =>
            match acc with
            | some c => some c
            | none => m.2.commands.find? (fun cmd => cmd.name = nm))
          (m.2.commands.find? (fun cmd => cmd.name = nm)) rest = some c
      rw [h]
      exact firstCommandNamed_foldl_some rest nm c

/-- A branch-level characterization of the rate limiter body. -/
theorem rateLimiterStep_eq (cfg : UserCooldownConfig) (now : Nat) (mc : Nat)
    (w u : Option Nat) :
    rateLimiterStep cfg now ⟨mc, w, u⟩ =
      if mc + 1 < cfg.messageCount then
        (⟨mc + 1, if w.isNone then some (now + cfg.intervalMs) else w, u⟩,
         ⟨true, 0⟩)
      else if mc + 1 = cfg.messageCount then
        (⟨mc + 1, if w.isNone then some (now + cfg.intervalMs) else w,
          some (now + cfg.blockDurationMs)⟩, ⟨false, 1⟩)
      else
        (⟨mc + 1, if w.isNone then some (now + cfg.intervalMs) else w, u⟩,
         ⟨false, 0⟩) := by
  rcases w with _ | wv <;> simp only [rateLimiterStep] <;> split_ifs <;> rfl

/-- How firing timers acts on the pending unblock deadline. -/
theorem fireTimersUpTo_unblockAt (now : Nat) (s : RLState) :
    (fireTimersUpTo now s).unblockAt =
      match s.unblockAt with
      | some uv => if uv ≤ now then none else some uv
      | none => none := by
  rcases s with ⟨mc, w, u⟩
  rcases w with _ | wv <;> rcases u with _ | uv
  · rfl
  · by_cases h : uv ≤ now <;> simp [fireTimersUpTo, h]
  · by_cases h : wv ≤ now <;> simp [fireTimersUpTo, h]
  · by_cases h1 : wv ≤ now <;> by_cases h2 : uv ≤ now <;>
      simp [fireTimersUpTo, h1, h2]

/-! ## The claims -/

/-- C1: for every user and counting window, while the (incremented) message
counter stays strictly below the `messageCount` threshold the rate-limiter
stage forwards the message to the next stage (no notice); on the message
where the counter reaches the threshold exactly it emits exactly one
rate-limit notice, adds the user to the blocked-user set with removal
scheduled `blockDurationMs` later, and does not forward the message; and in
the full pipeline a message the rate limiter refuses to forward (with its
one notice) ends the run rate-limited, so it is never dispatched. -/
theorem claim_C1_rate_limiter_threshold :
    (∀ (cfg : UserCooldownConfig) (now : Nat) (s : RLState),
      ((rateLimiterStep cfg now s).1.messageCounter < cfg.messageCount →
        (rateLimiterStep cfg now s).2 = ⟨true, 0⟩) ∧
      ((rateLimiterStep cfg now s).1.messageCounter = cfg.messageCount →
        (rateLimiterStep cfg now s).2 = ⟨false, 1⟩ ∧
        (rateLimiterStep cfg now s).1.unblockAt =
          some (now + cfg.blockDurationMs))) ∧
    (∀ (cfg : Config) (mods : Registry) (now : Nat) (rl : RLState) (msg : Msg)
       (command : String) (args : List String) (s' : RLState),
      msg.authorIsBot = false →
      cfg.blockedUsers.contains msg.authorId = false →
      (fireTimersUpTo now rl).unblockAt = none →
      commandDetector cfg msg = Except.ok (some (command, args)) →
      rateLimiterStep cfg.defaultUserCooldown now (fireTimersUpTo now rl) =
        (s', ⟨false, 1⟩) →
      runPipeline cfg mods now rl msg =
        Except.ok (s', PipelineResult.rateLimited 1)) := by
  constructor
  · intro cfg now s
    rcases s with ⟨mc, w, u⟩
    have hc : (rateLimiterStep cfg now ⟨mc, w, u⟩).1.messageCounter = mc + 1 :=
      rateLimiterStep_counter cfg now ⟨mc, w, u⟩
    constructor
    · intro h
      rw [hc] at h
      rw [rateLimiterStep_eq, if_pos h]
    · intro h
      rw [hc] at h
      have hnl : ¬ (mc + 1 < cfg.messageCount) := by omega
      rw [rateLimiterStep_eq, if_neg hnl, if_pos h]
      exact ⟨rfl, rfl⟩
  · intro cfg mods now rl msg command args s' hbot hcont hnoblk hdet hstep
    simp only [runPipeline, hbot, Bool.false_eq_true, if_false, hcont,
      hnoblk, Option.isSome_none, Bool.or_self, hdet, hstep]

/-- Witness for C1 at the default tunables: the first message of a window is
forwarded without a notice; the fifth message triggers the single notice and
the scheduled unblock. -/
theorem claim_C1_witness :
    (rateLimiterStep defaultCooldown 0 initialRLState).2 = ⟨true, 0⟩ ∧
    (rateLimiterStep defaultCooldown 0 ⟨4, some 10000, none⟩).2 = ⟨false, 1⟩ ∧
    (rateLimiterStep defaultCooldown 0 ⟨4, some 10000, none⟩).1.unblockAt =
      some (0 + defaultCooldown.blockDurationMs) :=
  ⟨(claim_C1_rate_limiter_threshold.1 defaultCooldown 0 initialRLState).1
      (by decide),
   ((claim_C1_rate_limiter_threshold.1 defaultCooldown 0
      ⟨4, some 10000, none⟩).2 (by decide)).1,
   ((claim_C1_rate_limiter_threshold.1 defaultCooldown 0
      ⟨4, some 10000, none⟩).2 (by decide)).2⟩

/-- C2 counterexample: with a threshold of one message, a single message at
time 0 yields a reachable state in which the user is blocked *and* the
counting window is still active — the two flags are not mutually
exclusive. -/
theorem claim_C2_counterexample :
    RLReachable cfgThresholdOne 0 (processMessage cfgThresholdOne 0 initialRLState).1 ∧
    blockedFlag (processMessage cfgThresholdOne 0 initialRLState).1 = true ∧
    cooldownActive (processMessage cfgThresholdOne 0 initialRLState).1 = true :=
  ⟨RLReachable.message RLReachable.init (Nat.le_refl 0), by decide, by decide⟩

/-- C2 amended: `blocked` and `cooldownActive` are not mutually exclusive —
a user blocked during an open window keeps both flags until the window
expires; what holds in every reachable state is that when both flags are set
the user's counter has reached the `messageCount` threshold (the block fired
in the still-open window). -/
theorem claim_C2_amended :
    ∀ (cfg : UserCooldownConfig) (t : Nat) (s : RLState),
      RLReachable cfg t s → blockedFlag s = true → cooldownActive s = true →
      cfg.messageCount ≤ s.messageCounter := by
  intro cfg t s h
  have : rlInv cfg s := by
    induction h with
    | init => intro hb _; simp [blockedFlag, initialRLState] at hb
    | message _ _ ih => exact rlInv_processMessage _ _ _ ih
    | elapse _ _ ih => exact rlInv_fire _ _ _ ih
  exact this

/-- Witness for C2's amended theorem at the blocking trace of the
counterexample configuration. -/
theorem claim_C2_witness :
    cfgThresholdOne.messageCount ≤
      (processMessage cfgThresholdOne 0 initialRLState).1.messageCounter :=
  claim_C2_amended cfgThresholdOne 0
    (processMessage cfgThresholdOne 0 initialRLState).1
    (RLReachable.message RLReachable.init (Nat.le_refl 0))
    (by decide) (by decide)

/-- C3 counterexample: with `blockDurationMs = 5` shorter than
`intervalMs = 10` and a threshold of 1, the message at time 0 blocks the
user with unblock scheduled at 5; the first message after the block expires
(time 6) leaves the counter at 2 — the stale window is still open — not at
1 as the claim states (and the message is silently dropped, not forwarded). -/
theorem claim_C3_counterexample :
    (processMessage cfgShortBlock 0 initialRLState).1.unblockAt = some 5 ∧
    (processMessage cfgShortBlock 6
      (processMessage cfgShortBlock 0 initialRLState).1).1.messageCounter = 2 ∧
    (processMessage cfgShortBlock 6
      (processMessage cfgShortBlock 0 initialRLState).1).2 =
      RLMsgOutcome.passedRateLimiter ⟨false, 0⟩ := by decide

/-- C3 amended: while a user's pending unblock deadline has not passed, every
message is dropped by the blocked-user check (before the command-detection
stage); and provided the counting window expires no later than the block
does (`windowExpiresAt ≤ unblockAt`, as with the default tunables where
`intervalMs < blockDurationMs`), the first message after the block expires
ends with `messageCount = 1` — a fresh window, not the stale value. In the
full pipeline a still-blocked author's message ends at the blocked-user
filter. -/
theorem claim_C3_amended :
    (∀ (cfg : UserCooldownConfig) (s : RLState) (u : Nat),
      s.unblockAt = some u →
      ∀ t', t' < u →
        (processMessage cfg t' s).2 = RLMsgOutcome.droppedBlocked) ∧
    (∀ (cfg : UserCooldownConfig) (s : RLState) (t u w : Nat),
      s.unblockAt = some u → s.windowExpiresAt = some w → w ≤ u → u ≤ t →
      (processMessage cfg t s).1.messageCounter = 1) ∧
    (∀ (cfg : Config) (mods : Registry) (now : Nat) (rl : RLState) (msg : Msg)
       (u : Nat),
      msg.authorIsBot = false →
      (fireTimersUpTo now rl).unblockAt = some u →
      runPipeline cfg mods now rl msg =
        Except.ok (fireTimersUpTo now rl, PipelineResult.droppedBlockedUser)) := by
  refine ⟨?_, ?_, ?_⟩
  · intro cfg s u hu t' ht'
    have hsome : (fireTimersUpTo t' s).unblockAt = some u := by
      rw [fireTimersUpTo_unblockAt, hu]
      exact if_neg (by omega)
    simp [processMessage, hsome]
  · intro cfg s t u w hu hw hwu hut
    have hfire : fireTimersUpTo t s = ⟨0, none, none⟩ := by
      rcases s with ⟨mc, w', u'⟩
      cases hu
      cases hw
      simp only [fireTimersUpTo]
      rw [if_pos (le_trans hwu hut)]
      simp only []
      rw [if_pos hut]
    simp only [processMessage, hfire, Option.isSome_none, Bool.false_eq_true,
      if_false]
    rw [rateLimiterStep_counter]
  · intro cfg mods now rl msg u hbot hub
    simp [runPipeline, hbot, hub]

/-- Witness for C3's amended theorem at the default tunables: after blocking
at time 0 (unblock at 60000, window expiry at 10000), the message at time
30000 is dropped by the blocked-user filter, and the first message after the
unblock (time 70000) starts a fresh window with counter 1. -/
theorem claim_C3_witness :
    (processMessage defaultCooldown 30000 ⟨5, some 10000, some 60000⟩).2 =
      RLMsgOutcome.droppedBlocked ∧
    (processMessage defaultCooldown 70000 ⟨5, some 10000, some 60000⟩).1.messageCounter = 1 :=
  ⟨claim_C3_amended.1 defaultCooldown ⟨5, some 10000, some 60000⟩ 60000 rfl
      30000 (by decide),
   claim_C3_amended.2.1 defaultCooldown ⟨5, some 10000, some 60000⟩ 70000
      60000 10000 rfl rfl (by decide) (by decide)⟩

/-- C4: the permission check is exactly the ordered short-circuit — allow the
configured owner (regardless of all other arguments); else allow the reserved
group `all` (any actor); else allow membership of the actor's id in a
configured group named by the required group; else allow when a member
context is present and the actor holds the override role; otherwise deny. -/
theorem claim_C4_authorize :
    ∀ (cfg : Config) (member : Option Member) (userId group role : String),
      hasPermission cfg member userId group role = true ↔
        (userId = cfg.owner ∨ group = "all" ∨
         (∃ members, alistFind cfg.groups group = some members ∧
            userId ∈ members) ∨
         (∃ m, member = some m ∧ role ∈ m.roles)) := by
  intro cfg member userId group role
  unfold hasPermission
  rcases h : alistFind cfg.groups group with _ | members <;>
    rcases member with _ | m <;>
    split_ifs with h1 h2 h3 <;> simp_all

/-- Witness for C4: a configured group member passes for that group. -/
theorem claim_C4_witness :
    hasPermission cfgStaff none "alice" "staff" "" = true :=
  (claim_C4_authorize cfgStaff none "alice" "staff" "").mpr
    (Or.inr (Or.inr (Or.inl ⟨["alice"], rfl, by decide⟩)))

/-- C5 counterexample: with module `m1` mapping alias `a` to `b` and the
later module `m2` mapping alias `b` to `c`, the code resolves the token `a`
to the command `c` — the rewrite chains through later modules — whereas the
claim's first-match-wins search would stop at `m1` and resolve to the
command `b`. -/
theorem claim_C5_counterexample :
    (getCommandNamed cfgPlain modsChain "a").map Command.name = some "c" ∧
    (getCommandNamedFirstMatchSpec cfgPlain modsChain "a").map Command.name =
      some "b" := ⟨rfl, rfl⟩

/-- C5 amended: a configured global alias override always wins (when the
token is a key of the override map, the module alias indexes are not
consulted at all and the override's target is looked up directly); when no
override matches, the token is *folded* through the loaded modules' alias
indexes in load order — each module rewriting the current token if its index
maps it to a non-empty target, so a later module may rewrite an earlier
module's result — and the resolved name is matched against the modules'
command lists in load order, first match returned. -/
theorem claim_C5_amended :
    ∀ (cfg : Config) (mods : Registry) (command : String),
      getCommandNamed cfg mods command =
        getCommandNamedChainSpec cfg mods command ∧
      (∀ v, alistFind cfg.commandAliases command = some v →
        getCommandNamed cfg mods command = firstCommandNamed mods v) := by
  intro cfg mods command
  constructor
  · simp only [getCommandNamed, getCommandNamedChainSpec]
    rcases h : alistFind cfg.commandAliases command with _ | v
    · rw [foldDefaultAliases_eq_chain, firstCommandNamed_eq_findSome]
    · rw [firstCommandNamed_eq_findSome]
  · intro v hv
    simp only [getCommandNamed, hv]

/-- Witness for C5's amended theorem: the chained resolution of the token
`a`, and an override sending `ping` elsewhere beating the module index. -/
theorem claim_C5_witness :
    getCommandNamed cfgPlain modsChain "a" =
      getCommandNamedChainSpec cfgPlain modsChain "a" ∧
    getCommandNamed
        ⟨"owner0", "$", [("a", "c")], defaultCooldown, [], [], [], [], []⟩
        modsChain "a" =
      firstCommandNamed modsChain "c" :=
  ⟨(claim_C5_amended cfgPlain modsChain "a").1,
   (claim_C5_amended
      ⟨"owner0", "$", [("a", "c")], defaultCooldown, [], [], [], [], []⟩
      modsChain "a").2 "c" rfl⟩

/-- C6 counterexample: for the command `mod` (zero required arguments,
permission level `admins`) invoked with enough arguments by an unprivileged
user, the command is *not* executed — the dispatch ends in a permission
denial — so "executes if and only if enough arguments are supplied" fails in
the right-to-left direction. -/
theorem claim_C6_counterexample :
    requiredArgCount cmdMod ≤ List.length ([] : List String) ∧
    commandDispatcher cfgPlain modsMod msgDirect "mod" [] =
      Except.ok DispatchOutcome.permissionDenied := ⟨by decide, rfl⟩

/-- C6 amended: when fewer arguments are supplied than the count of
`argumentNames` entries not ending in `?`, a usage error naming the expected
argument list and the command's description is reported and the command is
not executed (regardless of permission); when at least that many are
supplied — with no upper bound — and the permission check passes, the
command is executed. -/
theorem claim_C6_amended :
    ∀ (cfg : Config) (mods : Registry) (msg : Msg) (command : String)
      (args : List String) (cmd : Command),
      getCommandNamed cfg mods command = some cmd →
      ((args.length < requiredArgCount cmd →
         commandDispatcher cfg mods msg command args =
           Except.ok (DispatchOutcome.insufficientArgs
             (jsJoin " " cmd.argumentNames) cmd.description)) ∧
       (∀ ro, resolvedRoleOverride cfg msg command = Except.ok ro →
         hasPermission cfg msg.member msg.authorId
           (resolvedPermissionLevel cfg command cmd) ro = true →
         requiredArgCount cmd ≤ args.length →
         commandDispatcher cfg mods msg command args =
           Except.ok (match cmd.execute args with
             | Except.ok _ => DispatchOutcome.executedOk
             | Except.error m =>
                 DispatchOutcome.executionErrorReported command m))) := by
  intro cfg mods msg command args cmd hfound
  constructor
  · intro hlen
    rw [commandDispatcher_characterization, hfound]
    simp only [if_neg (Nat.not_le.mpr hlen)]
  · intro ro hro hperm hlen
    rw [commandDispatcher_characterization, hfound]
    simp only [if_pos hlen, hro, hperm, if_true]
    rcases he : cmd.execute args with m | _ <;> simp only [he]

/-- Witness for C6's amended theorem: `mod` invoked by the owner with zero
args executes; `kick` (one required argument) invoked with zero args yields
the usage error. -/
theorem claim_C6_witness :
    commandDispatcher cfgPlain modsMod ⟨"owner0", false, "$mod", none, none⟩
        "mod" [] =
      Except.ok (match cmdMod.execute [] with
        | Except.ok _ => DispatchOutcome.executedOk
        | Except.error m => DispatchOutcome.executionErrorReported "mod" m) ∧
    commandDispatcher cfgPlain modsKick msgDirect "kick" [] =
      Except.ok (DispatchOutcome.insufficientArgs
        (jsJoin " " cmdKick.argumentNames) cmdKick.description) :=
  ⟨(claim_C6_amended cfgPlain modsMod ⟨"owner0", false, "$mod", none, none⟩
      "mod" [] cmdMod rfl).2 "" rfl (by decide) (by decide),
   (claim_C6_amended cfgPlain modsKick msgDirect "kick" [] cmdKick rfl).1
      (by decide)⟩

/-- C7 counterexample: (i) for a message from server `g1` when
`serverPermissions` holds no object for `g1`, the dispatcher throws a
`TypeError` instead of using an empty role override (with a `g1` object
present, the same dispatch succeeds); (ii) the per-command permission
override is keyed by the *typed token*, so invoking `kick` through its alias
`k` ignores the override configured under the canonical name `kick`. -/
theorem claim_C7_counterexample :
    commandDispatcher cfgNoServerMap modsKick msgFromServer "kick" ["x"] =
      Except.error PipeError.typeError ∧
    commandDispatcher cfgServerMapEmpty modsKick msgFromServer "kick" ["x"] =
      Except.ok DispatchOutcome.executedOk ∧
    resolvedPermissionLevel cfgNoServerMap "k" cmdKick = "all" ∧
    alistFind cfgNoServerMap.commandPermissions "kick" = some "admins" ∧
    (getCommandNamed cfgNoServerMap modsKick "k").map Command.name =
      some "kick" := ⟨rfl, rfl, rfl, rfl, rfl⟩

/-- C7 amended: the required group is the per-command permission override
keyed by the typed command token when a non-empty one is configured, else
the command's declared `permissionLevel`; the role override is the
per-server, per-command entry when the message is from a server *and* the
server-permissions configuration holds an object for that server (a missing
per-command entry yields the empty string, but a missing server object makes
the lookup throw a `TypeError`), and the empty string when the message is
not from a server; the dispatcher's permission gate consumes exactly these
two resolved values. -/
theorem claim_C7_amended :
    (∀ (cfg : Config) (command : String) (cmd : Command),
      (alistFind cfg.commandPermissions command = none →
        resolvedPermissionLevel cfg command cmd = cmd.permissionLevel) ∧
      (∀ v, alistFind cfg.commandPermissions command = some v → v ≠ "" →
        resolvedPermissionLevel cfg command cmd = v)) ∧
    (∀ (cfg : Config) (msg : Msg) (command : String),
      (msg.guild = none → resolvedRoleOverride cfg msg command = Except.ok "") ∧
      (∀ gid sm, msg.guild = some gid →
        alistFind cfg.serverPermissions gid = some sm →
        resolvedRoleOverride cfg msg command =
          Except.ok ((alistFind sm command).getD "")) ∧
      (∀ gid, msg.guild = some gid →
        alistFind cfg.serverPermissions gid = none →
        resolvedRoleOverride cfg msg command =
          Except.error PipeError.typeError)) ∧
    (∀ (cfg : Config) (mods : Registry) (msg : Msg) (command : String)
       (args : List String) (cmd : Command) (ro : String),
      getCommandNamed cfg mods command = some cmd →
      requiredArgCount cmd ≤ args.length →
      resolvedRoleOverride cfg msg command = Except.ok ro →
      commandDispatcher cfg mods msg command args =
        Except.ok (if hasPermission cfg msg.member msg.authorId
            (resolvedPermissionLevel cfg command cmd) ro
          then
            match cmd.execute args with
            | Except.ok _ => DispatchOutcome.executedOk
            | Except.error m =>
                DispatchOutcome.executionErrorReported command m
          else DispatchOutcome.permissionDenied)) := by
  refine ⟨?_, ?_, ?_⟩
  · intro cfg command cmd
    constructor
    · intro hnone
      simp only [resolvedPermissionLevel, hnone]
    · intro v hv hne
      simp only [resolvedPermissionLevel, hv, if_neg hne]
  · intro cfg msg command
    refine ⟨?_, ?_, ?_⟩
    · intro hnone
      simp only [resolvedRoleOverride, hnone]
    · intro gid sm hgid hsm
      simp only [resolvedRoleOverride, hgid, hsm]
    · intro gid hgid hnone
      simp only [resolvedRoleOverride, hgid, hnone]
  · intro cfg mods msg command args cmd ro hfound hlen hro
    rw [commandDispatcher_characterization, hfound]
    simp only [if_pos hlen, hro]
    by_cases hp : hasPermission cfg msg.member msg.authorId
        (resolvedPermissionLevel cfg command cmd) ro = true
    · rw [if_pos hp, if_pos hp]
      rcases he : cmd.execute args with m | _ <;> simp only [he]
    · rw [if_neg hp, if_neg hp]

/-- Witness for C7's amended theorem: the server object for `g1` exists but
holds no entry for `kick`, so the role override is empty and the dispatch
reduces to the permission gate on the resolved values. -/
theorem claim_C7_witness :
    commandDispatcher cfgServerMapEmpty modsKick msgFromServer "kick" ["x"] =
      Except.ok (if hasPermission cfgServerMapEmpty msgFromServer.member
          msgFromServer.authorId
          (resolvedPermissionLevel cfgServerMapEmpty "kick" cmdKick) ""
        then
          match cmdKick.execute ["x"] with
          | Except.ok _ => DispatchOutcome.executedOk
          | Except.error m => DispatchOutcome.executionErrorReported "kick" m
        else DispatchOutcome.permissionDenied) :=
  claim_C7_amended.2.2 cfgServerMapEmpty modsKick msgFromServer "kick" ["x"]
    cmdKick "" rfl (by decide) rfl

/-- C8: when a resolved command's execute hook fails, the dispatcher catches
the failure and reports it as a user-visible error carrying the typed
command name and the failure's message; the dispatch returns normally — the
failure is never propagated out of the dispatcher. -/
theorem claim_C8_exec_error_reported :
    ∀ (cfg : Config) (mods : Registry) (msg : Msg) (command : String)
      (args : List String) (cmd : Command) (ro errMsg : String),
      getCommandNamed cfg mods command = some cmd →
      requiredArgCount cmd ≤ args.length →
      resolvedRoleOverride cfg msg command = Except.ok ro →
      hasPermission cfg msg.member msg.authorId
        (resolvedPermissionLevel cfg command cmd) ro = true →
      cmd.execute args = Except.error errMsg →
      commandDispatcher cfg mods msg command args =
        Except.ok (DispatchOutcome.executionErrorReported command errMsg) := by
  intro cfg mods msg command args cmd ro errMsg hfound hlen hro hperm hexec
  rw [commandDispatcher_characterization, hfound]
  simp only [if_pos hlen, hro, hperm, if_true, hexec]

/-- Witness for C8: the always-failing `boom` command's rejection is caught
and reported with its message. -/
theorem claim_C8_witness :
    commandDispatcher cfgPlain modsBoom msgDirect "boom" [] =
      Except.ok (DispatchOutcome.executionErrorReported "boom" "kaput") :=
  claim_C8_exec_error_reported cfgPlain modsBoom msgDirect "boom" [] cmdBoom
    "" "kaput" rfl (by decide) rfl (by decide) rfl

/-- C9: loading a module under a name already present in the registry
reports the already-loaded error and leaves the registry — and therefore the
resolution of every token against it — exactly as it was. -/
theorem claim_C9_duplicate_load :
    ∀ (resolveSource : String → Option (Except String (List Command)))
      (registry : Registry) (name : String),
      (alistFind registry name).isSome = true →
      loadModule resolveSource registry name =
        (registry, some (LoadError.alreadyLoaded name)) ∧
      (∀ (cfg : Config) (token : String),
        getCommandNamed cfg (loadModule resolveSource registry name).1 token =
          getCommandNamed cfg registry token) := by
  intro resolveSource registry name h
  constructor
  · unfold loadModule
    rw [if_pos h]
  · intro cfg token
    unfold loadModule
    rw [if_pos h]

/-- Witness for C9: re-loading `core` fails with the already-loaded error
and `ping` still resolves to the original command. -/
theorem claim_C9_witness :
    loadModule (fun _ => none) regCore "core" =
      (regCore, some (LoadError.alreadyLoaded "core")) ∧
    (getCommandNamed cfgPlain
        (loadModule (fun _ => none) regCore "core").1 "ping").map
      Command.name = some "ping" := by
  refine ⟨(claim_C9_duplicate_load (fun _ => none) regCore "core"
    (by decide)).1, ?_⟩
  rw [(claim_C9_duplicate_load (fun _ => none) regCore "core"
    (by decide)).2 cfgPlain "ping"]
  rfl

/-- C10: a message whose content starts with the applicable prefix but whose
remainder trims to nothing produces a `null` regex match, so the
command-detection stage throws a `TypeError` (no silent short-circuit, no
empty command); no run of the pipeline on such a message ever reaches the
dispatcher, and for a non-bot, non-blocked author the whole pipeline run
ends with the thrown error. -/
theorem claim_C10_empty_command_throws :
    ∀ (cfg : Config) (mods : Registry) (now : Nat) (rl : RLState) (msg : Msg),
      strStartsWith msg.content (prefixForMessageContext cfg msg) = true →
      strTrim (strDrop msg.content (prefixForMessageContext cfg msg).length) =
        "" →
      commandDetector cfg msg = Except.error PipeError.typeError ∧
      (∀ r, runPipeline cfg mods now rl msg = Except.ok r →
        ∀ d, r.2 ≠ PipelineResult.dispatched d) ∧
      (msg.authorIsBot = false →
       cfg.blockedUsers.contains msg.authorId = false →
       (fireTimersUpTo now rl).unblockAt = none →
       runPipeline cfg mods now rl msg = Except.error PipeError.typeError) := by
  intro cfg mods now rl msg h1 h2
  have hdet : commandDetector cfg msg = Except.error PipeError.typeError := by
    simp only [commandDetector, h1, if_true, h2]
    rfl
  refine ⟨hdet, ?_, ?_⟩
  · intro r hr d
    simp only [runPipeline] at hr
    by_cases hb : msg.authorIsBot
    · rw [if_pos hb] at hr
      cases hr
      simp
    · rw [if_neg hb] at hr
      by_cases hblk : (cfg.blockedUsers.contains msg.authorId ||
          (fireTimersUpTo now rl).unblockAt.isSome) = true
      · rw [if_pos hblk] at hr
        cases hr
        simp
      · rw [if_neg hblk] at hr
        rw [hdet] at hr
        cases hr
  · intro hb hcont hnb
    simp only [runPipeline, hb, Bool.false_eq_true, if_false, hcont, hnb,
      Option.isSome_none, Bool.or_self, hdet]

/-- Witness for C10: the literal message `$` followed by spaces, under the
default prefix, makes the detector throw and the untouched pipeline run end
with the error. -/
theorem claim_C10_witness :
    commandDetector cfgPlain msgOnlySpaces = Except.error PipeError.typeError ∧
    runPipeline cfgPlain [] 0 initialRLState msgOnlySpaces =
      Except.error PipeError.typeError :=
  ⟨(claim_C10_empty_command_throws cfgPlain [] 0 initialRLState msgOnlySpaces
      (by decide) (by decide)).1,
   (claim_C10_empty_command_throws cfgPlain [] 0 initialRLState msgOnlySpaces
      (by decide) (by decide)).2.2 rfl (by decide) rfl⟩

end Liora
